import Mathlib

/-!
Verification of the offer persistence layer (`src/src/ledger/OfferFrame.cpp`)
of stellar-core against its natural-language specification.

Shallow embedding conventions:
* Account identifiers and issuer identifiers are represented by their external
  textual (base58check) form as plain `String`s; the identifier codec
  (`toBase58Check` / `fromBase58Check256`, external to this file's source) is a
  reversible black box, so working directly on the textual form is faithful.
* Currency codes (4-byte arrays in the source, converted by
  `currencyCodeToStr` / `strToCurrencyCode`) are represented as `String`s.
* The SQL table `Offers` is a list of rows; the four currency columns are
  `Option String` because the source's read path uses null indicators and its
  write path omits those columns for a native leg.  The `NOT NULL` constraints
  of `kSQLCreateStatement` are modelled as a separate check applied at insert
  time, exactly as a SQL engine would.
* Machine integers are `Int`/`Nat`; the only arithmetic in this file,
  `bigDivide` on the int32 x 10^7 range, stays far below 2^63, which the
  theorems about `computePrice` make explicit.
-/

namespace StellarOffer

/-- Currency: tagged union of the chain-native asset and an issued asset
(ISO4217 branch in the source) carrying a 4-char code and an issuer id. -/
inductive Currency where
  | native : Currency
  | issued (code : String) (issuer : String) : Currency
deriving DecidableEq

/-- Price: exact rational numerator/denominator (int32 fields in the XDR). -/
structure Price where
  n : Int
  d : Int
deriving DecidableEq

/-- OfferEntry: the in-memory offer record (`mEntry.offer()` in the source). -/
structure OfferEntry where
  accountID : String
  sequence : Nat
  takerPays : Currency
  takerGets : Currency
  amount : Int
  price : Price
  flags : Nat
deriving DecidableEq

/-- One row of the `Offers` table.  Column order and names follow
`kSQLCreateStatement`; the four currency columns are nullable (see module
comment), everything else is always bound. -/
structure OfferRow where
  accountID : String
  sequence : Nat
  paysIsoCurrency : Option String
  paysIssuer : Option String
  getsIsoCurrency : Option String
  getsIssuer : Option String
  amount : Int
  priceN : Int
  priceD : Int
  flags : Nat
  price : Int
deriving DecidableEq

/-- The persisted store: the rows of the `Offers` table. -/
abbrev OfferStore := List OfferRow

/-- LedgerDelta notifications (`delta.addEntry` / `modEntry` / `deleteEntry`). -/
inductive DeltaEvent where
  | added (o : OfferEntry)
  | modified (o : OfferEntry)
  | deleted (o : OfferEntry)
deriving DecidableEq

/-- Errors surfaced by the SQL backend or thrown by the store code itself.
`appError` is the source's own `throw std::runtime_error(msg)`. -/
inductive SqlError where
  | unknownColumn (c : String)
  | notNullViolation
  | uniqueViolation
  | appError (m : String)
deriving DecidableEq

/-- Error type of the spec's currency codec (section 4.1). -/
inductive CurrencyErr where
  | malformedCurrency
deriving DecidableEq

/-- Modelled from the spec: `OFFER_PRICE_DIVISOR` is declared outside this
repository slice (in `OfferFrame.h`); the spec fixes the scale constant used
by `orderingKey` to 10^7. -/
def OFFER_PRICE_DIVISOR : Int := 10000000

/-- Modelled from the spec: `bigDivide` lives in `util/types`, outside this
repository slice; the spec defines it as floor(A*B/C) computed with an
intermediate wide enough for the whole int32 x SCALE range (operands are
non-negative, so floor, truncation and Euclidean division agree).  `Int`
arithmetic is exact, hence trivially wide enough. -/
def bigDivide (a b c : Int) : Int := a * b / c

/-- `OfferFrame::computePrice`: `bigDivide(price.n, OFFER_PRICE_DIVISOR, price.d)`. -/
def computePrice (o : OfferEntry) : Int :=
  bigDivide o.price.n OFFER_PRICE_DIVISOR o.price.d

/-- Currency decoding as done per leg inside `OfferFrame::loadOffers`: the
branch is driven solely by the code column's null indicator (`i_ok`); when the
code is present the issuer column is read unconditionally (the source fetches
it into a plain string with no indicator; a null there has no in-source
representation, modelled by `Option.getD ""`). -/
def decodeCurrency (code : Option String) (issuer : Option String) : Currency :=
  match code with
  | some c => Currency.issued c (issuer.getD "")
  | none => Currency.native

/-- Decoding of one fetched row into an `OfferEntry`, per the loop body of
`OfferFrame::loadOffers` (the `price` column is not part of
`offerColumnSelector` and is not decoded). -/
def decodeRow (r : OfferRow) : OfferEntry :=
  { accountID := r.accountID
    sequence := r.sequence
    takerPays := decodeCurrency r.paysIsoCurrency r.paysIssuer
    takerGets := decodeCurrency r.getsIsoCurrency r.getsIssuer
    amount := r.amount
    price := ⟨r.priceN, r.priceD⟩
    flags := r.flags }

/-- The currency codec decode as the SPEC words it (section 4.1): presence of a
code implies Issued, absence implies Native, and exactly one of code/issuer
present without the other fails with MalformedCurrency.  This is the
claim-side definition, to be compared with `decodeCurrency` from the source. -/
def decodeSpec : Option String → Option String → Except CurrencyErr Currency
  | some c, some i => Except.ok (Currency.issued c i)
  | none, none => Except.ok Currency.native
  | _, _ => Except.error CurrencyErr.malformedCurrency

/-- Decidable equality for `Except`, needed to evaluate store results. -/
def exceptDecEq {ε α : Type} [DecidableEq ε] [DecidableEq α] :
    (a b : Except ε α) → Decidable (a = b)
  | Except.error x, Except.error y =>
      if h : x = y then isTrue (congrArg Except.error h)
      else isFalse (fun hc => h (Except.error.inj hc))
  | Except.error _, Except.ok _ => isFalse (fun hc => Except.noConfusion hc)
  | Except.ok _, Except.error _ => isFalse (fun hc => Except.noConfusion hc)
  | Except.ok x, Except.ok y =>
      if h : x = y then isTrue (congrArg Except.ok h)
      else isFalse (fun hc => h (Except.ok.inj hc))

instance {ε α : Type} [DecidableEq ε] [DecidableEq α] :
    DecidableEq (Except ε α) := exceptDecEq

/-- Lexicographic comparison of character lists by code point, realising the
SQL ordering of a `CHARACTER` column. -/
def charsLE : List Char → List Char → Bool
  | [], _ => true
  | _ :: _, [] => false
  | a :: as, b :: bs =>
    if a.toNat < b.toNat then true
    else if a.toNat = b.toNat then charsLE as bs
    else false

/-- SQL string ordering of the textual account ids. -/
def strLE (a b : String) : Bool := charsLE a.data b.data

/-- The primary-key match used by `loadOffer`, `storeChange` and `storeDelete`:
`accountID=:id AND sequence=:seq`. -/
def rowMatchesKey (acct : String) (seq : Nat) (r : OfferRow) : Bool :=
  r.accountID = acct && r.sequence = seq

/-- `OfferFrame::loadOffer`: runs the selector restricted to the key and, for
each fetched row, overwrites `retOffer` with the decoded row and sets the
result flag; rows that do not match leave `retOffer` untouched. -/
def loadOffer (acct : String) (seq : Nat) (store : OfferStore)
    (retOffer : OfferEntry) : Bool × OfferEntry :=
  (store.filter (rowMatchesKey acct seq)).foldl
    (fun _ r => (true, decodeRow r)) (false, retOffer)

/-- The comparison realised by `ORDER BY price,sequence,accountID` in
`loadBestOffers`: lexicographic on the stored ordering key, then the sequence
number, then the textual account id. -/
def rowLE (a b : OfferRow) : Bool :=
  decide (a.price < b.price ∨ (a.price = b.price ∧
    (a.sequence < b.sequence ∨ (a.sequence = b.sequence ∧
      strLE a.accountID b.accountID = true))))

/-- `rowLE` as a relation, for use with the sort. -/
def rowLEP (a b : OfferRow) : Prop := rowLE a b = true

instance : DecidableRel rowLEP :=
  fun a b => inferInstanceAs (Decidable (rowLE a b = true))

/-- Sort of the result set realising the SQL `ORDER BY` of `loadBestOffers`:
a deterministic sort by the `price,sequence,accountID` comparison. -/
def sortRows (l : List OfferRow) : List OfferRow := List.insertionSort rowLEP l

/-- The `WHERE` clause `loadBestOffers` emits for one leg, over that leg's two
columns: `<issuerCol> IS NULL` when the filter currency is native, otherwise
`<codeCol>=:cur AND <issuerCol>=:i`. -/
def sqlWhereLeg (f : Currency) (code issuer : Option String) : Bool :=
  match f with
  | Currency.native => issuer.isNone
  | Currency.issued c i => code = some c && issuer = some i

/-- The `WHERE` clause for the pays leg (`paysIssuer IS NULL`, or
`paysIsoCurrency=:pcur AND paysIssuer=:pi`). -/
def sqlWherePays (pays : Currency) (r : OfferRow) : Bool :=
  sqlWhereLeg pays r.paysIsoCurrency r.paysIssuer

/-- The `WHERE` clause for the gets leg (`getsIssuer IS NULL`, or
`getsIsoCurrency=:gcur AND getsIssuer=:gi`). -/
def sqlWhereGets (gets : Currency) (r : OfferRow) : Bool :=
  sqlWhereLeg gets r.getsIsoCurrency r.getsIssuer

/-- `OfferFrame::loadBestOffers`: filter by the emitted `WHERE` clause, sort by
`price,sequence,accountID`, apply `LIMIT :offset,:numOffers`, and decode each
row through `loadOffers`. -/
def loadBestOffers (numOffers offset : Nat) (pays gets : Currency)
    (store : OfferStore) : List OfferEntry :=
  ((((sortRows (store.filter
      (fun r => sqlWherePays pays r && sqlWhereGets gets r))).drop offset).take
        numOffers).map decodeRow)

/-- The order-book query as the SPEC words it (claim side): keep exactly the
stored offers whose decoded pays and gets legs match the filter currencies (by
code-and-issuer equality, or being native when the filter currency is native),
sorted ascending by (ordering key, sequence, accountID), skip `offset` rows of
that total order and return at most `numOffers` rows. -/
def bestOffersSpec (numOffers offset : Nat) (pays gets : Currency)
    (store : OfferStore) : List OfferEntry :=
  ((((sortRows (store.filter
      (fun r => decide ((decodeRow r).takerPays = pays) &&
                decide ((decodeRow r).takerGets = gets)))).drop offset).take
        numOffers).map decodeRow)

/-- The column names of the `Offers` table, from `kSQLCreateStatement`. -/
def schemaColumns : List String :=
  ["accountID", "sequence", "paysIsoCurrency", "paysIssuer",
   "getsIsoCurrency", "getsIssuer", "amount", "priceN", "priceD",
   "flags", "price"]

/-- The `NOT NULL` constraints of `kSQLCreateStatement`: every column of the
table is declared `NOT NULL`, in particular all four currency columns. -/
def schemaNotNull (r : OfferRow) : Bool :=
  r.paysIsoCurrency.isSome && r.paysIssuer.isSome &&
  r.getsIsoCurrency.isSome && r.getsIssuer.isSome

/-- SQL semantics of executing one `INSERT` naming `cols` with the bound row
`r`: preparing fails on a column name not in the schema; executing enforces the
`NOT NULL` constraints and the primary key `(accountID, sequence)`. -/
def execInsert (cols : List String) (r : OfferRow) (store : OfferStore) :
    Except SqlError OfferStore :=
  match cols.find? (fun c => !(schemaColumns.contains c)) with
  | some c => Except.error (SqlError.unknownColumn c)
  | none =>
    if !(schemaNotNull r) then Except.error SqlError.notNullViolation
    else if store.any (rowMatchesKey r.accountID r.sequence) then
      Except.error SqlError.uniqueViolation
    else Except.ok (store ++ [r])

/-- Reading the `isoCI().currencyCode` field of a currency as `storeAdd` does;
on a NATIVE union this access is invalid in the source (the XDR union holds no
such arm), modelled as junk `""`. -/
def isoCode : Currency → String
  | Currency.native => ""
  | Currency.issued c _ => c

/-- Reading the `isoCI().issuer` field of a currency as `storeAdd` does; on a
NATIVE union this access is invalid in the source, modelled as junk `""`. -/
def isoIssuer : Currency → String
  | Currency.native => ""
  | Currency.issued _ i => i

/-- Column list of the first `storeAdd` INSERT (taken when `takerGets` is
native).  Note the source names `priceP`, which `kSQLCreateStatement` does not
declare. -/
def addColsGetsNative : List String :=
  ["accountID", "sequence", "paysIsoCurrency", "paysIssuer",
   "amount", "priceN", "priceP", "price", "flags"]

/-- Row bound by the first `storeAdd` INSERT: the `use(...)` order binds the
issuer string to `paysIsoCurrency` and the currency code to `paysIssuer`
(swapped relative to the column names); the gets columns are not named and so
would be NULL; no column binds `priceD` (the statement is rejected at prepare
time because of `priceP`, so the 0 placeholder is never observable). -/
def addRowGetsNative (o : OfferEntry) : OfferRow :=
  { accountID := o.accountID
    sequence := o.sequence
    paysIsoCurrency := some (isoIssuer o.takerPays)
    paysIssuer := some (isoCode o.takerPays)
    getsIsoCurrency := none
    getsIssuer := none
    amount := o.amount
    priceN := o.price.n
    priceD := 0
    flags := o.flags
    price := computePrice o }

/-- Column list of the second `storeAdd` INSERT (taken when `takerPays` is
native and `takerGets` is not). -/
def addColsPaysNative : List String :=
  ["accountID", "sequence", "getsIsoCurrency", "getsIssuer",
   "amount", "priceN", "priceD", "price", "flags"]

/-- Row bound by the second `storeAdd` INSERT: the `use(...)` order binds the
issuer string to `getsIsoCurrency` and the currency code to `getsIssuer`
(swapped relative to the column names); the pays columns are not named and so
are NULL. -/
def addRowPaysNative (o : OfferEntry) : OfferRow :=
  { accountID := o.accountID
    sequence := o.sequence
    paysIsoCurrency := none
    paysIssuer := none
    getsIsoCurrency := some (isoIssuer o.takerGets)
    getsIssuer := some (isoCode o.takerGets)
    amount := o.amount
    priceN := o.price.n
    priceD := o.price.d
    flags := o.flags
    price := computePrice o }

/-- Column list of the third `storeAdd` INSERT (both legs issued). -/
def addColsBothIssued : List String :=
  ["accountID", "sequence", "paysIsoCurrency", "paysIssuer",
   "getsIsoCurrency", "getsIssuer", "amount", "priceN", "priceD",
   "price", "flags"]

/-- Row bound by the third `storeAdd` INSERT; here the `use(...)` order matches
the column names. -/
def addRowBothIssued (o : OfferEntry) : OfferRow :=
  { accountID := o.accountID
    sequence := o.sequence
    paysIsoCurrency := some (isoCode o.takerPays)
    paysIssuer := some (isoIssuer o.takerPays)
    getsIsoCurrency := some (isoCode o.takerGets)
    getsIssuer := some (isoIssuer o.takerGets)
    amount := o.amount
    priceN := o.price.n
    priceD := o.price.d
    flags := o.flags
    price := computePrice o }

/-- `OfferFrame::storeAdd`: selects the INSERT branch on which leg is native
(`takerGets` tested first), executes it, and on success (affected rows = 1)
notifies the delta with `addEntry`.  A backend error propagates (the source
throws out of `st.execute`). -/
def storeAdd (o : OfferEntry) (store : OfferStore) :
    OfferStore × Except SqlError (List DeltaEvent) :=
  let branch :=
    if o.takerGets = Currency.native then
      (addColsGetsNative, addRowGetsNative o)
    else if o.takerPays = Currency.native then
      (addColsPaysNative, addRowPaysNative o)
    else
      (addColsBothIssued, addRowBothIssued o)
  match execInsert branch.1 branch.2 store with
  | Except.error e => (store, Except.error e)
  | Except.ok store2 => (store2, Except.ok [DeltaEvent.added o])

/-- Field update done by `storeChange`'s UPDATE: sets `amount`, `priceN`,
`priceD` and the derived `price`; all other columns are untouched. -/
def updateRow (o : OfferEntry) (r : OfferRow) : OfferRow :=
  { r with amount := o.amount, priceN := o.price.n, priceD := o.price.d,
           price := computePrice o }

/-- `OfferFrame::storeChange`: executes the UPDATE keyed on
`(accountID, sequence)` — every matching row is updated — then throws
`runtime_error("could not update SQL")` unless the affected-row count is
exactly 1; on success notifies the delta with `modEntry`. -/
def storeChange (o : OfferEntry) (store : OfferStore) :
    OfferStore × Except SqlError (List DeltaEvent) :=
  let store2 := store.map
    (fun r => if rowMatchesKey o.accountID o.sequence r then updateRow o r else r)
  let affected := (store.filter (rowMatchesKey o.accountID o.sequence)).length
  if affected = 1 then (store2, Except.ok [DeltaEvent.modified o])
  else (store2, Except.error (SqlError.appError "could not update SQL"))

/-- `OfferFrame::storeDelete`: executes the DELETE keyed on
`(accountID, sequence)` and then unconditionally notifies the delta with
`deleteEntry` — there is no check of the affected-row count. -/
def storeDelete (o : OfferEntry) (store : OfferStore) :
    OfferStore × List DeltaEvent :=
  (store.filter (fun r => !(rowMatchesKey o.accountID o.sequence r)),
   [DeltaEvent.deleted o])

/-- The two legs of an offer. -/
inductive Leg where
  | pays
  | gets
deriving DecidableEq

/-- The currency held by a leg of an offer. -/
def legCurrency (o : OfferEntry) : Leg → Currency
  | Leg.pays => o.takerPays
  | Leg.gets => o.takerGets

/-- Which of the three INSERT branches `storeAdd` takes: the source tests
`takerGets.type()==NATIVE` first, then `takerPays.type()==NATIVE`. -/
def storeAddBranch (o : OfferEntry) : Nat :=
  if o.takerGets = Currency.native then 1
  else if o.takerPays = Currency.native then 2
  else 3

/-- The legs whose `isoCI()` fields (currencyCode and issuer) the taken
`storeAdd` branch reads: branch 1 reads `takerPays`, branch 2 reads
`takerGets`, branch 3 reads both. -/
def storeAddIsoReads (o : OfferEntry) : List Leg :=
  if o.takerGets = Currency.native then [Leg.pays]
  else if o.takerPays = Currency.native then [Leg.gets]
  else [Leg.pays, Leg.gets]

/-- The 4 raw bytes of the uint32 `sequence` as laid out in memory, read by
`calculateIndex` through `ByteSlice(&sequence, sizeof(sequence))`; `le`
selects the platform byte order (the source's own TODO flags the endian
dependence). -/
def seqBytes4 (le : Bool) (s : Nat) : List Nat :=
  let b := [s % 256, s / 256 % 256, s / 65536 % 256, s / 16777216 % 256]
  if le then b else b.reverse

/-- The byte stream `OfferFrame::calculateIndex` feeds to SHA256: the 32
account-id bytes followed by the raw in-memory bytes of `sequence`. -/
def calculateIndexInput (le : Bool) (accountID : List Nat) (seq : Nat) :
    List Nat :=
  accountID ++ seqBytes4 le seq

/-- Per-leg consistency of a stored row: the code column and the issuer column
of a leg are null together or present together.  This is the row shape the
spec's schema admits (section 6) and the only shape the source itself can
write. -/
def rowConsistent (r : OfferRow) : Bool :=
  (r.paysIsoCurrency.isSome == r.paysIssuer.isSome) &&
  (r.getsIsoCurrency.isSome == r.getsIssuer.isSome)

/-- All rows of a store are leg-consistent. -/
def storeConsistent (store : OfferStore) : Bool :=
  store.all rowConsistent

/-! Concrete fixtures used by witnesses and counterexamples. -/

/-- A both-issued row for the USD/EUR pair, with the stored `price` column
holding the derived ordering key. -/
def mkPairRow (acct : String) (seq : Nat) (pn pd : Int) : OfferRow :=
  { accountID := acct, sequence := seq,
    paysIsoCurrency := some "USD ", paysIssuer := some "IP",
    getsIsoCurrency := some "EUR ", getsIssuer := some "IG",
    amount := 100, priceN := pn, priceD := pd, flags := 0,
    price := pn * 10000000 / pd }

/-- The spec's ordering example: O1=(price 1/2, seq 5, acct A),
O2=(price 1/2, seq 3, acct A), O3=(price 1/3, seq 1, acct B). -/
def exStore : OfferStore :=
  [mkPairRow "A" 5 1 2, mkPairRow "A" 3 1 2, mkPairRow "B" 1 1 3]

/-- An offer whose gets leg is native (first `storeAdd` branch). -/
def oGetsNat : OfferEntry :=
  { accountID := "GA", sequence := 7,
    takerPays := Currency.issued "USD " "GI", takerGets := Currency.native,
    amount := 100, price := ⟨3, 1⟩, flags := 0 }

/-- An offer whose pays leg is native (second `storeAdd` branch). -/
def oPaysNat : OfferEntry :=
  { accountID := "GB", sequence := 8,
    takerPays := Currency.native, takerGets := Currency.issued "USD " "GI",
    amount := 100, price := ⟨3, 1⟩, flags := 0 }

/-- An offer with both legs issued (third `storeAdd` branch). -/
def oBoth : OfferEntry :=
  { accountID := "GC", sequence := 9,
    takerPays := Currency.issued "USD " "GI",
    takerGets := Currency.issued "EUR " "GJ",
    amount := 100, price := ⟨3, 1⟩, flags := 0 }

/-- An offer with both legs native (invalid per the data-model invariant). -/
def oBothNat : OfferEntry :=
  { accountID := "GD", sequence := 10,
    takerPays := Currency.native, takerGets := Currency.native,
    amount := 100, price := ⟨3, 1⟩, flags := 0 }

/-- An offer used to exercise `storeChange`, `storeDelete` and `loadOffer`. -/
def oUpd : OfferEntry :=
  { accountID := "GU", sequence := 2,
    takerPays := Currency.issued "USD " "GI",
    takerGets := Currency.issued "EUR " "GJ",
    amount := 55, price := ⟨7, 2⟩, flags := 0 }

/-- A stored row with the key of `oUpd`. -/
def rowUpd : OfferRow :=
  { accountID := "GU", sequence := 2,
    paysIsoCurrency := some "USD ", paysIssuer := some "GI",
    getsIsoCurrency := some "EUR ", getsIssuer := some "GJ",
    amount := 100, priceN := 3, priceD := 1, flags := 0,
    price := 30000000 }

/-- A row whose pays pair is null, the shape the spec's schema assigns to a
native pays leg. -/
def nullPaysRow : OfferRow :=
  { accountID := "A", sequence := 1,
    paysIsoCurrency := none, paysIssuer := none,
    getsIsoCurrency := some "USD ", getsIssuer := some "I",
    amount := 1, priceN := 1, priceD := 1, flags := 0,
    price := 10000000 }

/-- The 1/3 price offer of the spec's determinism example. -/
def offer13 : OfferEntry :=
  { accountID := "A", sequence := 1,
    takerPays := Currency.issued "USD " "I", takerGets := Currency.native,
    amount := 0, price := ⟨1, 3⟩, flags := 0 }

/-! Helper lemmas: totality and transitivity of the `ORDER BY` comparison,
and the behaviour of the row-callback fold of `loadOffers`. -/

/-- `charsLE` is total. -/
theorem charsLE_total : ∀ x y : List Char, charsLE x y = true ∨ charsLE y x = true
  | [], [] => Or.inl rfl
  | [], _ :: _ => Or.inl rfl
  | _ :: _, [] => Or.inr rfl
  | a :: as, b :: bs => by
    rcases Nat.lt_trichotomy a.toNat b.toNat with h | h | h
    · left; simp [charsLE, h]
    · rcases charsLE_total as bs with ih | ih
      · left; simp [charsLE, h, ih]
      · right; simp [charsLE, h.symm, ih]
    · right; simp [charsLE, h]

/-- `charsLE` is transitive. -/
theorem charsLE_trans : ∀ x y z : List Char,
    charsLE x y = true → charsLE y z = true → charsLE x z = true
  | [], _, _, _, _ => rfl
  | _ :: _, [], _, h, _ => by simp [charsLE] at h
  | _ :: _, _ :: _, [], _, h => by simp [charsLE] at h
  | a :: as, b :: bs, c :: cs, h1, h2 => by
    simp only [charsLE] at h1 h2 ⊢
    by_cases hab : a.toNat < b.toNat <;> by_cases hbc : b.toNat < c.toNat
    · simp [Nat.lt_trans hab hbc]
    · rw [if_neg hbc] at h2
      by_cases hbc2 : b.toNat = c.toNat
      · simp [hbc2 ▸ hab]
      · rw [if_neg hbc2] at h2; exact absurd h2 (by simp)
    · rw [if_neg hab] at h1
      by_cases hab2 : a.toNat = b.toNat
      · simp [hab2 ▸ hbc]
      · rw [if_neg hab2] at h1; exact absurd h1 (by simp)
    · rw [if_neg hab] at h1
      rw [if_neg hbc] at h2
      by_cases hab2 : a.toNat = b.toNat
      · by_cases hbc2 : b.toNat = c.toNat
        · rw [if_pos hab2] at h1; rw [if_pos hbc2] at h2
          have hac : a.toNat = c.toNat := hab2.trans hbc2
          have : ¬ a.toNat < c.toNat := by omega
          rw [if_neg this, if_pos hac]
          exact charsLE_trans as bs cs h1 h2
        · rw [if_neg hbc2] at h2; exact absurd h2 (by simp)
      · rw [if_neg hab2] at h1; exact absurd h1 (by simp)

/-- The `ORDER BY` comparison is total. -/
theorem rowLE_total (a b : OfferRow) : rowLEP a b ∨ rowLEP b a := by
  simp only [rowLEP, rowLE, strLE, decide_eq_true_eq]
  rcases lt_trichotomy a.price b.price with h | h | h
  · exact Or.inl (Or.inl h)
  · rcases Nat.lt_trichotomy a.sequence b.sequence with h2 | h2 | h2
    · exact Or.inl (Or.inr ⟨h, Or.inl h2⟩)
    · rcases charsLE_total a.accountID.data b.accountID.data with h3 | h3
      · exact Or.inl (Or.inr ⟨h, Or.inr ⟨h2, h3⟩⟩)
      · exact Or.inr (Or.inr ⟨h.symm, Or.inr ⟨h2.symm, h3⟩⟩)
    · exact Or.inr (Or.inr ⟨h.symm, Or.inl h2⟩)
  · exact Or.inr (Or.inl h)

/-- The `ORDER BY` comparison is transitive. -/
theorem rowLE_trans (a b c : OfferRow) (h1 : rowLEP a b) (h2 : rowLEP b c) :
    rowLEP a c := by
  simp only [rowLEP, rowLE, strLE, decide_eq_true_eq] at h1 h2 ⊢
  rcases h1 with h1 | ⟨he1, h1⟩
  · rcases h2 with h2 | ⟨he2, _⟩
    · exact Or.inl (lt_trans h1 h2)
    · exact Or.inl (he2 ▸ h1)
  · rcases h2 with h2 | ⟨he2, h2⟩
    · exact Or.inl (he1 ▸ h2)
    · refine Or.inr ⟨he1.trans he2, ?_⟩
      rcases h1 with h1 | ⟨hs1, h1⟩
      · rcases h2 with h2 | ⟨hs2, _⟩
        · exact Or.inl (Nat.lt_trans h1 h2)
        · exact Or.inl (hs2 ▸ h1)
      · rcases h2 with h2 | ⟨hs2, h2⟩
        · exact Or.inl (hs1 ▸ h2)
        · exact Or.inr ⟨hs1.trans hs2, charsLE_trans _ _ _ h1 h2⟩

instance : IsTotal OfferRow rowLEP := ⟨rowLE_total⟩

instance : IsTrans OfferRow rowLEP := ⟨rowLE_trans⟩

/-- Once the row callback of `loadOffers` has fired, the found flag stays. -/
theorem loadFoldTrue (l : List OfferRow) (e : OfferEntry) :
    (l.foldl (fun _ r => (true, decodeRow r)) (true, e)).1 = true := by
  induction l generalizing e with
  | nil => rfl
  | cons b bs ih => exact ih (decodeRow b)

/-- On a leg-consistent pair of columns, the emitted `WHERE` clause matches a
row exactly when the decoded leg currency equals the filter currency. -/
theorem sqlWhereLeg_decode (f : Currency) (code issuer : Option String)
    (h : (code.isSome == issuer.isSome) = true) :
    sqlWhereLeg f code issuer = decide (decodeCurrency code issuer = f) := by
  cases f with
  | native => cases code <;> cases issuer <;>
      simp_all [sqlWhereLeg, decodeCurrency]
  | issued c i => cases code <;> cases issuer <;>
      simp_all [sqlWhereLeg, decodeCurrency]

/-! Claim theorems. -/

/-- C2: for every price with non-negative int32 numerator and positive int32
denominator, `computePrice` returns floor(n * SCALE / d) computed exactly
(the intermediate n * SCALE stays below 2^63, so a wide multiply-then-divide
never overflows, and the int64 result is in range); the result is the value
of a pure function of (n, d), hence deterministic. -/
theorem computePrice_floor (o : OfferEntry)
    (hn0 : 0 ≤ o.price.n) (hn : o.price.n < 2 ^ 31)
    (hd0 : 0 < o.price.d) (_hd : o.price.d < 2 ^ 31) :
    computePrice o = Int.fdiv (o.price.n * 10000000) o.price.d ∧
    o.price.n * 10000000 < 2 ^ 63 ∧
    0 ≤ computePrice o ∧ computePrice o < 2 ^ 63 := by
  have hmul : (0 : Int) ≤ o.price.n * 10000000 :=
    mul_nonneg hn0 (by norm_num)
  have hbound : o.price.n * 10000000 < 2 ^ 63 := by
    have h1 : o.price.n * 10000000 < 2 ^ 31 * 10000000 :=
      mul_lt_mul_of_pos_right hn (by norm_num)
    calc o.price.n * 10000000 < 2 ^ 31 * 10000000 := h1
      _ < 2 ^ 63 := by norm_num
  have hval : computePrice o = o.price.n * 10000000 / o.price.d := rfl
  refine ⟨?_, hbound, ?_, ?_⟩
  · rw [hval, Int.fdiv_eq_ediv _ (le_of_lt hd0)]
  · rw [hval]; exact Int.ediv_nonneg hmul (le_of_lt hd0)
  · rw [hval]
    calc o.price.n * 10000000 / o.price.d ≤ o.price.n * 10000000 :=
          Int.ediv_le_self _ hmul
      _ < 2 ^ 63 := hbound

/-- C2 witness: the spec's determinism example, price 1/3 at scale 10^7 gives
3333333, instantiating `computePrice_floor` at `offer13`. -/
theorem computePrice_floor_witness : computePrice offer13 = 3333333 :=
  ((computePrice_floor offer13 (by decide) (by decide) (by decide)
    (by decide)).1).trans (by decide)

/-- C8: the byte stream `calculateIndex` hashes is NOT canonical: the raw
in-memory bytes of `sequence` differ between a little-endian and a big-endian
platform already at sequence 1 with a zero account id, so two conforming
implementations feed different inputs to the hash (the source's own TODO
comment flags this endian dependence). -/
theorem calculateIndexInput_endian_dependent :
    calculateIndexInput true (List.replicate 32 0) 1 ≠
    calculateIndexInput false (List.replicate 32 0) 1 := by decide

/-- C9: under the precondition that the two legs are not both native,
`storeAdd` takes one of its three insert branches and reads the
`isoCI()` fields only from legs whose currency is issued, never from a native
leg; without the precondition the first branch is taken and reads the
`isoCI()` fields of the native `takerPays` leg. -/
theorem storeAdd_isoReads_safe (o : OfferEntry) :
    (¬(o.takerPays = Currency.native ∧ o.takerGets = Currency.native) →
      (storeAddBranch o = 1 ∨ storeAddBranch o = 2 ∨ storeAddBranch o = 3) ∧
      ∀ l, l ∈ storeAddIsoReads o → legCurrency o l ≠ Currency.native) ∧
    (o.takerPays = Currency.native ∧ o.takerGets = Currency.native →
      storeAddBranch o = 1 ∧ storeAddIsoReads o = [Leg.pays] ∧
      legCurrency o Leg.pays = Currency.native) := by
  constructor
  · intro h
    by_cases hg : o.takerGets = Currency.native
    · have hp : ¬ o.takerPays = Currency.native := fun hp => h ⟨hp, hg⟩
      refine ⟨Or.inl (by simp [storeAddBranch, hg]), ?_⟩
      intro l hl
      simp only [storeAddIsoReads, if_pos hg, List.mem_singleton] at hl
      subst hl
      exact hp
    · by_cases hp : o.takerPays = Currency.native
      · refine ⟨Or.inr (Or.inl (by simp [storeAddBranch, hg, hp])), ?_⟩
        intro l hl
        simp only [storeAddIsoReads, if_neg hg, if_pos hp,
          List.mem_singleton] at hl
        subst hl
        exact hg
      · refine ⟨Or.inr (Or.inr (by simp [storeAddBranch, hg, hp])), ?_⟩
        intro l hl
        simp only [storeAddIsoReads, if_neg hg, if_neg hp] at hl
        cases hl with
        | head => exact hp
        | tail _ hl2 =>
          cases hl2 with
          | head => exact hg
          | tail _ hl3 => exact absurd hl3 (List.not_mem_nil l)
  · intro ⟨hp, hg⟩
    exact ⟨by simp [storeAddBranch, hg], by simp [storeAddIsoReads, hg],
      by simp [legCurrency, hp]⟩

/-- C9 witness: instantiating `storeAdd_isoReads_safe` at the both-native
offer (second conjunct) and at a pays-native offer (first conjunct). -/
theorem storeAdd_isoReads_safe_witness :
    storeAddBranch oBothNat = 1 ∧
    legCurrency oBothNat Leg.pays = Currency.native ∧
    storeAddBranch oPaysNat = 2 := by
  have h2 := (storeAdd_isoReads_safe oBothNat).2 (by exact ⟨rfl, rfl⟩)
  have h1 := (storeAdd_isoReads_safe oPaysNat).1 (by decide)
  refine ⟨h2.1, h2.2.2, ?_⟩
  rcases h1.1 with h | h | h
  · exact absurd h (by decide)
  · exact h
  · exact absurd h (by decide)

/-- C4: the schema of `kSQLCreateStatement` does NOT admit a null code/issuer
pair — all four currency columns are declared NOT NULL, so the row the spec
assigns to a native pays leg violates the schema — and `storeAdd` never
writes a native leg as a null pair: with a native pays leg the insert is
rejected by the NOT NULL constraint, and with a native gets leg the insert
names a column `priceP` that does not exist in the schema. -/
theorem schema_rejects_native_legs :
    schemaNotNull nullPaysRow = false ∧
    rowConsistent nullPaysRow = true ∧
    (storeAdd oPaysNat []).2 = Except.error SqlError.notNullViolation ∧
    (storeAdd oGetsNat []).2 =
      Except.error (SqlError.unknownColumn "priceP") := by decide

/-- C3: add-then-load round-trip fails for well-formed offers with a native
leg: a gets-native offer is rejected because its INSERT names the
non-existent column `priceP`, and a pays-native offer is rejected by the
NOT NULL constraints; only the both-issued branch succeeds and round-trips
(shown here at a concrete offer on an empty store). -/
theorem storeAdd_roundtrip_bug :
    (storeAdd oGetsNat []).2.isOk = false ∧
    (storeAdd oPaysNat []).2.isOk = false ∧
    (storeAdd oBoth []).2 = Except.ok [DeltaEvent.added oBoth] ∧
    loadOffer "GC" 9 (storeAdd oBoth []).1 oGetsNat = (true, oBoth) := by decide

/-- C5 counterexample: on a row with the issuer present but the code absent,
the source's decoding returns Native — it does not fail with
MalformedCurrency as the claim states (the spec-side decode does). -/
theorem decodeCurrency_issuerOnly_native :
    decodeCurrency none (some "ISSUER") = Currency.native ∧
    decodeSpec none (some "ISSUER") =
      Except.error CurrencyErr.malformedCurrency := by decide

/-- C5 amended: decoding is driven solely by the presence of the code column:
a present code yields Issued with that code and the issuer column's value, an
absent code yields Native with the issuer column ignored; no
MalformedCurrency check exists.  On rows where code and issuer presence
agree this coincides with the spec's decode. -/
theorem decodeCurrency_code_driven (code issuer : Option String)
    (h : code.isSome = issuer.isSome) :
    decodeSpec code issuer = Except.ok (decodeCurrency code issuer) ∧
    (code = none → decodeCurrency code issuer = Currency.native) ∧
    (∀ c, code = some c →
      decodeCurrency code issuer = Currency.issued c (issuer.getD "")) := by
  cases code <;> cases issuer <;> simp_all [decodeSpec, decodeCurrency]

/-- C5 witness: instantiating `decodeCurrency_code_driven` on a consistent
issued pair. -/
theorem decodeCurrency_code_driven_witness :
    decodeSpec (some "USD ") (some "I") =
      Except.ok (decodeCurrency (some "USD ") (some "I")) :=
  (decodeCurrency_code_driven (some "USD ") (some "I") rfl).1

/-- C6 counterexample: `storeChange` signals the absent-key case (0 affected
rows) and the multi-row case (2 affected rows, primary key violated) with one
and the same error — `runtime_error("could not update SQL")` — so no pair of
distinct errors NotFound / PersistenceFailure separates the two cases as the
claim states. -/
theorem storeChange_single_error_kind :
    (storeChange oUpd ([] : OfferStore)).2 =
      Except.error (SqlError.appError "could not update SQL") ∧
    (storeChange oUpd [rowUpd, rowUpd]).2 =
      Except.error (SqlError.appError "could not update SQL") ∧
    (([] : OfferStore).filter
      (rowMatchesKey oUpd.accountID oUpd.sequence)).length = 0 ∧
    ([rowUpd, rowUpd].filter
      (rowMatchesKey oUpd.accountID oUpd.sequence)).length = 2 ∧
    ¬ ∃ e0 e2 : SqlError, e0 ≠ e2 ∧
        (storeChange oUpd ([] : OfferStore)).2 = Except.error e0 ∧
        (storeChange oUpd [rowUpd, rowUpd]).2 = Except.error e2 := by
  refine ⟨by decide, by decide, by decide, by decide, ?_⟩
  rintro ⟨e0, e2, hne, h0, h2⟩
  have hA : (storeChange oUpd ([] : OfferStore)).2 =
      Except.error (SqlError.appError "could not update SQL") := by decide
  have hB : (storeChange oUpd [rowUpd, rowUpd]).2 =
      Except.error (SqlError.appError "could not update SQL") := by decide
  rw [hA] at h0
  rw [hB] at h2
  exact hne ((Except.error.inj h0).symm.trans (Except.error.inj h2))

/-- C6 amended: `storeChange` succeeds (one `onModify` notification) exactly
when the affected-row count is 1; for any other count — including 0, the
absent-key case, where it performs no mutation — it fails with the single
error `could not update SQL`, without distinguishing NotFound from
PersistenceFailure. -/
theorem storeChange_affected_rows (o : OfferEntry) (store : OfferStore) :
    ((storeChange o store).2 = Except.ok [DeltaEvent.modified o] ↔
      (store.filter (rowMatchesKey o.accountID o.sequence)).length = 1) ∧
    ((store.filter (rowMatchesKey o.accountID o.sequence)).length ≠ 1 →
      (storeChange o store).2 =
        Except.error (SqlError.appError "could not update SQL")) ∧
    ((store.filter (rowMatchesKey o.accountID o.sequence)).length = 0 →
      (storeChange o store).1 = store) := by
  refine ⟨?_, ?_, ?_⟩
  · constructor
    · intro h
      by_contra hne
      simp only [storeChange, if_neg hne] at h
      exact Except.noConfusion h
    · intro h1
      simp only [storeChange, if_pos h1]
  · intro hne
    simp only [storeChange, if_neg hne]
  · intro h0
    have hnil : store.filter (rowMatchesKey o.accountID o.sequence) = [] :=
      List.length_eq_zero.mp h0
    have hall := List.filter_eq_nil_iff.mp hnil
    simp only [storeChange]
    have hmap : store.map
        (fun r => if rowMatchesKey o.accountID o.sequence r then
          updateRow o r else r) = store.map id := by
      apply List.map_congr_left
      intro r hr
      simp [Bool.eq_false_iff.mpr (hall r hr)]
    simp only [hmap, List.map_id]
    split <;> rfl

/-- C6 witness: instantiating `storeChange_affected_rows` at a store holding
exactly the matching row (success and notification) and at the empty store
(no mutation). -/
theorem storeChange_affected_rows_witness :
    (storeChange oUpd [rowUpd]).2 = Except.ok [DeltaEvent.modified oUpd] ∧
    (storeChange oUpd ([] : OfferStore)).1 = [] :=
  ⟨(storeChange_affected_rows oUpd [rowUpd]).1.mpr (by decide),
   (storeChange_affected_rows oUpd ([] : OfferStore)).2.2 (by decide)⟩

/-- C7 counterexample: deleting on the empty store removes nothing — no row
with the key exists — yet `storeDelete` still notifies the change sink with
`onDelete` (the source calls `delta.deleteEntry` unconditionally), violating
the claim that `onDelete` fires only when a row actually existed. -/
theorem storeDelete_notifies_on_absent :
    (([] : OfferStore).filter
      (rowMatchesKey oUpd.accountID oUpd.sequence)) = [] ∧
    (storeDelete oUpd []).2 = [DeltaEvent.deleted oUpd] := by decide

/-- C7 amended: `storeDelete` removes exactly the rows with the offer's key,
is idempotent at the storage level (deleting an absent row is not an error
and a second delete changes nothing; a subsequent `loadOffer` on the key
finds nothing), and invokes `onDelete` exactly once, synchronously before
returning, regardless of whether a row existed. -/
theorem storeDelete_removes_key (o : OfferEntry) (store : OfferStore)
    (ret : OfferEntry) :
    (∀ r, r ∈ (storeDelete o store).1 ↔
      r ∈ store ∧ rowMatchesKey o.accountID o.sequence r = false) ∧
    loadOffer o.accountID o.sequence (storeDelete o store).1 ret =
      (false, ret) ∧
    (storeDelete o (storeDelete o store).1).1 = (storeDelete o store).1 ∧
    (storeDelete o store).2 = [DeltaEvent.deleted o] := by
  refine ⟨?_, ?_, ?_, rfl⟩
  · intro r
    simp [storeDelete, List.mem_filter]
  · have hnil : ((storeDelete o store).1).filter
        (rowMatchesKey o.accountID o.sequence) = [] := by
      simp only [storeDelete, List.filter_filter]
      rw [List.filter_eq_nil_iff]
      intro a _
      cases rowMatchesKey o.accountID o.sequence a <;> decide
    simp only [loadOffer, hnil, List.foldl_nil]
  · simp only [storeDelete, List.filter_filter]
    apply List.filter_congr
    intro a _
    cases rowMatchesKey o.accountID o.sequence a <;> decide

/-- C7 amended witness: instantiating `storeDelete_removes_key` at a
one-row store with the matching key. -/
theorem storeDelete_removes_key_witness :
    (rowUpd ∈ (storeDelete oUpd [rowUpd]).1 ↔
      rowUpd ∈ [rowUpd] ∧
      rowMatchesKey oUpd.accountID oUpd.sequence rowUpd = false) ∧
    loadOffer oUpd.accountID oUpd.sequence (storeDelete oUpd [rowUpd]).1
      oGetsNat = (false, oGetsNat) :=
  ⟨(storeDelete_removes_key oUpd [rowUpd] oGetsNat).1 rowUpd,
   (storeDelete_removes_key oUpd [rowUpd] oGetsNat).2.1⟩

/-- C10: `loadOffer` returns true exactly when a row with the key
`(accountID, sequence)` is stored; when no row matches it returns false and
leaves the caller-supplied output entity unmodified; when exactly one row
matches, the output entity is that row's decoded fields. -/
theorem loadOffer_point_lookup (acct : String) (seq : Nat)
    (store : OfferStore) (ret : OfferEntry) :
    ((loadOffer acct seq store ret).1 = true ↔
      ∃ r, r ∈ store ∧ rowMatchesKey acct seq r = true) ∧
    ((¬ ∃ r, r ∈ store ∧ rowMatchesKey acct seq r = true) →
      loadOffer acct seq store ret = (false, ret)) ∧
    (∀ r, store.filter (rowMatchesKey acct seq) = [r] →
      loadOffer acct seq store ret = (true, decodeRow r)) := by
  refine ⟨?_, ?_, ?_⟩
  · cases hf : store.filter (rowMatchesKey acct seq) with
    | nil =>
      constructor
      · intro h
        simp only [loadOffer, hf, List.foldl_nil] at h
        exact absurd h (by decide)
      · rintro ⟨r, hr, hp⟩
        have hmem : r ∈ store.filter (rowMatchesKey acct seq) :=
          List.mem_filter.mpr ⟨hr, hp⟩
        rw [hf] at hmem
        exact absurd hmem (List.not_mem_nil r)
    | cons a as =>
      constructor
      · intro _
        have hmem : a ∈ store.filter (rowMatchesKey acct seq) := by
          rw [hf]; exact List.mem_cons_self a as
        have := List.mem_filter.mp hmem
        exact ⟨a, this.1, this.2⟩
      · intro _
        simp only [loadOffer, hf, List.foldl_cons]
        exact loadFoldTrue as (decodeRow a)
  · intro hne
    have hf : store.filter (rowMatchesKey acct seq) = [] := by
      rw [List.filter_eq_nil_iff]
      intro a ha hp
      exact hne ⟨a, ha, hp⟩
    simp only [loadOffer, hf, List.foldl_nil]
  · intro r hr
    simp only [loadOffer, hr, List.foldl_cons, List.foldl_nil]

/-- C10 witness: instantiating `loadOffer_point_lookup` at the empty store
(miss leaves the output untouched) and at a one-row store (hit decodes the
row). -/
theorem loadOffer_point_lookup_witness :
    loadOffer "GU" 2 [] oGetsNat = (false, oGetsNat) ∧
    loadOffer "GU" 2 [rowUpd] oGetsNat = (true, decodeRow rowUpd) :=
  ⟨(loadOffer_point_lookup "GU" 2 [] oGetsNat).2.1
      (by rintro ⟨r, hr, _⟩; exact absurd hr (List.not_mem_nil r)),
   (loadOffer_point_lookup "GU" 2 [rowUpd] oGetsNat).2.2 rowUpd (by decide)⟩

/-- C1: on a store of leg-consistent rows, `loadBestOffers` returns exactly
the stored offers whose decoded pays and gets legs match the filter
currencies (code-and-issuer equality, or being native when the filter
currency is native), in the order of the `(ordering key, sequence,
accountID)` sort — `sortRows` here is a permutation of the matching rows
and is pairwise-sorted by that triple — with `offset` rows skipped and at
most `numOffers` rows returned. -/
theorem loadBestOffers_canonical (n o : Nat) (pays gets : Currency)
    (store : OfferStore) (hc : storeConsistent store = true) :
    loadBestOffers n o pays gets store = bestOffersSpec n o pays gets store ∧
    List.Perm
      (sortRows (store.filter
        (fun r => sqlWherePays pays r && sqlWhereGets gets r)))
      (store.filter (fun r => sqlWherePays pays r && sqlWhereGets gets r)) ∧
    List.Sorted rowLEP
      (sortRows (store.filter
        (fun r => sqlWherePays pays r && sqlWhereGets gets r))) ∧
    (loadBestOffers n o pays gets store).length ≤ n := by
  have hfil : store.filter
      (fun r => sqlWherePays pays r && sqlWhereGets gets r) =
      store.filter (fun r => decide ((decodeRow r).takerPays = pays) &&
        decide ((decodeRow r).takerGets = gets)) := by
    apply List.filter_congr
    intro r hr
    have hcr : rowConsistent r = true := List.all_eq_true.mp hc r hr
    simp only [rowConsistent, Bool.and_eq_true] at hcr
    obtain ⟨h1, h2⟩ := hcr
    simp only [sqlWherePays, sqlWhereGets]
    rw [sqlWhereLeg_decode pays _ _ h1, sqlWhereLeg_decode gets _ _ h2]
    rfl
  refine ⟨?_, List.perm_insertionSort rowLEP _,
    List.sorted_insertionSort rowLEP _, ?_⟩
  · simp only [loadBestOffers, bestOffersSpec, hfil]
  · simp only [loadBestOffers, List.length_map]
    exact List.length_take_le _ _

/-- C1 witness: the spec's ordering example — offers O1=(price 1/2, seq 5,
acct A), O2=(price 1/2, seq 3, acct A), O3=(price 1/3, seq 1, acct B) on the
same pair come back as [O3, O2, O1] — instantiating
`loadBestOffers_canonical` on the consistent example store. -/
theorem loadBestOffers_canonical_witness :
    storeConsistent exStore = true ∧
    loadBestOffers 10 0 (Currency.issued "USD " "IP")
        (Currency.issued "EUR " "IG") exStore =
      [decodeRow (mkPairRow "B" 1 1 3), decodeRow (mkPairRow "A" 3 1 2),
       decodeRow (mkPairRow "A" 5 1 2)] :=
  ⟨by decide,
   ((loadBestOffers_canonical 10 0 (Currency.issued "USD " "IP")
      (Currency.issued "EUR " "IG") exStore (by decide)).1).trans
    (by decide)⟩

end StellarOffer
